import Mathlib

/-!
Verification of the recursive refinement-tree core of the
`excalidragram` repository: the `GeneratedImage` forest data model, the
tree operations `findImageById`, `addRefinementsToImage` and
`findSiblings`, the keyboard-navigation handler, the `handleRefine`
orchestrator (src/app/page.tsx), and the batch-generation endpoint
`POST` with `generateSingleImage` (src/app/api/generate/route.ts),
shallowly embedded in Lean.
-/

namespace Excalidragram

/-- `interface GeneratedImage { id; url; base64; refinements: GeneratedImage[] }`
from src/app/page.tsx. -/
inductive GeneratedImage : Type where
  | mk (id : String) (url : String) (base64 : String)
       (refinements : List GeneratedImage)

def GeneratedImage.id : GeneratedImage → String
  | .mk i _ _ _ => i

def GeneratedImage.url : GeneratedImage → String
  | .mk _ u _ _ => u

def GeneratedImage.base64 : GeneratedImage → String
  | .mk _ _ b _ => b

def GeneratedImage.refinements : GeneratedImage → List GeneratedImage
  | .mk _ _ _ r => r

@[simp] theorem GeneratedImage.id_mk (i u b : String) (r : List GeneratedImage) :
    (GeneratedImage.mk i u b r).id = i := rfl

@[simp] theorem GeneratedImage.url_mk (i u b : String) (r : List GeneratedImage) :
    (GeneratedImage.mk i u b r).url = u := rfl

@[simp] theorem GeneratedImage.base64_mk (i u b : String) (r : List GeneratedImage) :
    (GeneratedImage.mk i u b r).base64 = b := rfl

@[simp] theorem GeneratedImage.refinements_mk (i u b : String)
    (r : List GeneratedImage) : (GeneratedImage.mk i u b r).refinements = r := rfl

/-- `findImageById` from src/app/page.tsx lines 59-66: depth-first search
over the forest, recursing into each node's `refinements` before moving to
the next root; returns the first match or `null`. -/
def findImageById : List GeneratedImage → String → Option GeneratedImage
  | [], _ => none
  | img :: rest, id =>
    if img.id = id then some img
    else
      match findImageById img.refinements id with
      | some found => some found
      | none => findImageById rest id
termination_by images _ => sizeOf images
decreasing_by
  · cases img; simp [GeneratedImage.refinements]; omega
  · simp

/-- `addRefinementsToImage` from src/app/page.tsx lines 68-82: maps over the
forest; the node whose id matches `targetId` gets `newRefinements` appended
to its `refinements`, every other node is rebuilt with the recursively
processed children. -/
def addRefinementsToImage :
    List GeneratedImage → String → List GeneratedImage → List GeneratedImage
  | [], _, _ => []
  | img :: rest, targetId, newRefinements =>
    (if img.id = targetId then
      GeneratedImage.mk img.id img.url img.base64
        (img.refinements ++ newRefinements)
     else
      GeneratedImage.mk img.id img.url img.base64
        (addRefinementsToImage img.refinements targetId newRefinements))
    :: addRefinementsToImage rest targetId newRefinements
termination_by images _ _ => sizeOf images
decreasing_by
  · cases img; simp [GeneratedImage.refinements]; omega
  · simp

mutual
/-- `findSiblings` from src/app/page.tsx lines 85-99: if some top-level
image has the target id, return the top-level list; otherwise scan the
list (the `for` loop, embedded as `findSiblingsLoop`). -/
def findSiblings (images : List GeneratedImage) (targetId : String) :
    Option (List GeneratedImage) :=
  if images.any (fun img => img.id == targetId) then some images
  else findSiblingsLoop images targetId
termination_by (sizeOf images, 1)
decreasing_by
  exact Prod.Lex.right _ (by omega)

/-- The `for (const img of images)` loop body of `findSiblings`: if a
node's direct `refinements` contain the target id return that list, else
recurse into the refinements, else continue with the rest. -/
def findSiblingsLoop : List GeneratedImage → String → Option (List GeneratedImage)
  | [], _ => none
  | img :: rest, targetId =>
    if img.refinements.any (fun r => r.id == targetId) then
      some img.refinements
    else
      match findSiblings img.refinements targetId with
      | some found => some found
      | none => findSiblingsLoop rest targetId
termination_by images _ => (sizeOf images, 0)
decreasing_by
  · exact Prod.Lex.left _ _ (by cases img; simp [GeneratedImage.refinements]; omega)
  · exact Prod.Lex.left _ _ (by simp)
end

/-- All nodes of the forest in depth-first (preorder) order: each root
followed by its descendants, then the later roots. -/
def allNodes : List GeneratedImage → List GeneratedImage
  | [] => []
  | img :: rest => img :: (allNodes img.refinements ++ allNodes rest)
termination_by images => sizeOf images
decreasing_by
  · cases img; simp [GeneratedImage.refinements]; omega
  · simp

/-- Whether some node of the forest, at any depth, has the given id. -/
def containsId : List GeneratedImage → String → Bool
  | [], _ => false
  | img :: rest, id =>
    img.id == id || containsId img.refinements id || containsId rest id
termination_by images _ => sizeOf images
decreasing_by
  · cases img; simp [GeneratedImage.refinements]; omega
  · simp

/-- The ids of all nodes of the forest, in depth-first order. -/
def forestIds (images : List GeneratedImage) : List String :=
  (allNodes images).map GeneratedImage.id

/-- The spec's invariant: `id` is unique across the entire forest. -/
def idsUnique (images : List GeneratedImage) : Prop :=
  (forestIds images).Nodup

/-! ### Keyboard navigation (src/app/page.tsx lines 307-330) -/

/-- A keyboard event as discriminated by `handleKeyDown`: the two arrow
keys it reacts to, and anything else. -/
inductive KeyEvent : Type where
  | arrowLeft
  | arrowRight
  | other
deriving DecidableEq

/-- JavaScript truthiness of an optional string (absent and `""` are falsy). -/
def truthy : Option String → Bool
  | none => false
  | some s => !(s == "")

/-- `handleKeyDown` from src/app/page.tsx lines 308-326, as the transition
on `selectedImageId`: early return when nothing is selected or the modal is
open or the key is not an arrow key; otherwise resolve the siblings, locate
the current index, compute the wrapped new index and select that sibling. -/
def handleKeyDown (selectedImageId : Option String) (modalImage : Option String)
    (generatedImages : List GeneratedImage) (key : KeyEvent) : Option String :=
  match selectedImageId with
  | none => none
  | some sel =>
    if sel == "" || truthy modalImage then some sel
    else
      match key with
      | .other => some sel
      | k =>
        match findSiblings generatedImages sel with
        | none => some sel
        | some siblings =>
          match siblings.findIdx? (fun img => img.id == sel) with
          | none => some sel
          | some currentIndex =>
            let newIndex :=
              match k with
              | .arrowLeft =>
                if currentIndex > 0 then currentIndex - 1 else siblings.length - 1
              | _ =>
                if currentIndex < siblings.length - 1 then currentIndex + 1 else 0
            match siblings.get? newIndex with
            | some img => some img.id
            | none => some sel

/-! ### Refinement orchestrator (src/app/page.tsx lines 386-444) -/

/-- The pieces of the `Home` component state that `handleRefine` reads or
writes. -/
structure RefineState where
  generatedImages : List GeneratedImage
  selectedImageId : Option String
  refinementPrompt : String
  error : Option String
  refiningImageId : Option String

/-- One character of the JavaScript whitespace class trimmed by
`String.prototype.trim`. -/
def isJsWhitespace (c : Char) : Bool :=
  c == ' ' || c == '\t' || c == '\n' || c == '\r' || c == '\x0b' || c == '\x0c'

/-- `refinementPrompt.trim()`: strip leading and trailing whitespace. -/
def jsTrim (s : String) : String :=
  String.mk (((s.data.dropWhile isJsWhitespace).reverse.dropWhile
    isJsWhitespace).reverse)

/-- `dataUrl.split(sep)` over the character list (JS `String.prototype.split`
with a single-character separator). -/
def splitOnChar (sep : Char) : List Char → List (List Char)
  | [] => [[]]
  | c :: cs =>
    match splitOnChar sep cs with
    | [] => if c == sep then [[], []] else [[c]]
    | h :: t => if c == sep then [] :: h :: t else (c :: h) :: t

/-- `extractBase64` from src/app/page.tsx lines 55-57:
`dataUrl.split(",")[1] || dataUrl` (an absent or empty second chunk is
falsy, so the whole data URL is returned in that case). -/
def extractBase64 (dataUrl : String) : String :=
  match (splitOnChar ',' dataUrl.data).get? 1 with
  | some cs => if cs.isEmpty then dataUrl else String.mk cs
  | none => dataUrl

/-- The record construction of src/app/page.tsx lines 425-432: each
non-null url of the response becomes a fresh `GeneratedImage` with a newly
generated id (`crypto.randomUUID()`, modelled by the supply `freshIds`) and
empty `refinements`. -/
def mkRefinedImages (urls : List String) (freshIds : Nat → String) :
    List GeneratedImage :=
  urls.enum.map (fun p => GeneratedImage.mk (freshIds p.1) p.2 (extractBase64 p.2) [])

/-- `handleRefine` from src/app/page.tsx lines 386-444 as a pure transition.
`fetchResult` is the outcome of the `fetch("/api/generate", ...)` call:
`.error e` covers a transport failure or a non-ok response (the thrown
error's message), `.ok imgs` the parsed `data.images`. The returned `Bool`
records whether the outbound call was dispatched at all. -/
def handleRefine (st : RefineState) (hasApiKey : Bool) (parentImage : GeneratedImage)
    (fetchResult : Except String (List (Option String))) (freshIds : Nat → String) :
    RefineState × Bool :=
  if jsTrim st.refinementPrompt == "" then (st, false)
  else if !hasApiKey then
    ({ st with error := some "Please enter your Gemini API key first" }, false)
  else
    let st1 := { st with refiningImageId := some parentImage.id, error := none }
    match fetchResult with
    | .error e =>
      ({ st1 with error := some e, refiningImageId := none }, true)
    | .ok imgs =>
      let refinedImages := mkRefinedImages (imgs.filterMap (fun x => x)) freshIds
      ({ st1 with
          generatedImages :=
            addRefinementsToImage st1.generatedImages parentImage.id refinedImages,
          refinementPrompt := "",
          selectedImageId := none,
          refiningImageId := none }, true)

/-! ### Generation endpoint (src/app/api/generate/route.ts) -/

/-- One reference image of the request body. -/
structure RefImage where
  data : String
  mimeType : String
deriving DecidableEq

/-- `inlineData` of a response part. -/
structure InlineData where
  data : String
  mimeType : Option String
deriving DecidableEq

/-- One part of the model response candidate's content. -/
structure ResponsePart where
  text : Option String
  inlineData : Option InlineData
deriving DecidableEq

/-- The outcome of one `genai.models.generateContent` call:
`.error e` a thrown error (already mapped to its message string),
`.ok none` a response with no `candidates[0].content.parts`,
`.ok (some parts)` the content parts. -/
def SlotResponse : Type := Except String (Option (List ResponsePart))

/-- The `{ index, image?, error? }` result of `generateSingleImage`. -/
structure SingleResult where
  index : Nat
  image : Option String
  error : Option String
deriving DecidableEq

/-- `part.inlineData.mimeType || "image/png"` of route.ts line 70. -/
def mimeOrDefault : Option String → String
  | some m => if m == "" then "image/png" else m
  | none => "image/png"

/-- The `for (const part of candidate.content.parts)` loop of route.ts
lines 66-73: the first part with truthy `inlineData?.data` yields the
data URL. -/
def findInlineImage : List ResponsePart → Option String
  | [] => none
  | p :: rest =>
    match p.inlineData with
    | some d =>
      if d.data == "" then findInlineImage rest
      else some ("data:" ++ mimeOrDefault d.mimeType ++ ";base64," ++ d.data)
    | none => findInlineImage rest

/-- `generateSingleImage` from route.ts lines 24-83, with the external
model call abstracted into its outcome `resp`. -/
def generateSingleImage (resp : SlotResponse) (index : Nat) : SingleResult :=
  match resp with
  | .error e => { index := index, image := none, error := some e }
  | .ok none => { index := index, image := none, error := some "No response from model" }
  | .ok (some parts) =>
    match findInlineImage parts with
    | some url => { index := index, image := some url, error := none }
    | none => { index := index, image := none, error := some "No image in response" }

/-- The request body of route.ts lines 17-22 (`GenerateRequest`): a missing
`prompt`/`apiKey` and the empty string are both falsy in the source, so both
are modelled as `""`; a missing `referenceImages` is `none`; a missing
`count` is `none` (defaulted to 5). -/
structure GenerateRequest where
  prompt : String
  referenceImages : Option (List RefImage)
  count : Option Nat
  apiKey : String

/-- The endpoint's JSON response: `success` is a 200 with `{images, errors}`,
`failure` a non-2xx status with `{error}`. -/
inductive PostResponse : Type where
  | success (images : List (Option String)) (errors : List (Nat × String))
  | failure (status : Nat) (message : String)
deriving DecidableEq

/-- `POST` from route.ts lines 85-129, with the per-slot model call
abstracted as `callModel`: validate apiKey then prompt/references, fan out
`count` single-image generations (slot `i` gets index `i`), sort the
results by index, project `images` (`r.image || null`) and `errors`
(`filter(r => r.error)`). -/
def POST (req : GenerateRequest) (callModel : Nat → SlotResponse) : PostResponse :=
  if req.apiKey == "" then
    .failure 401 "API key is required. Please enter your Gemini API key."
  else
    match req.referenceImages with
    | none => .failure 400 "Prompt and at least one reference image are required"
    | some refs =>
      if req.prompt == "" || refs.length == 0 then
        .failure 400 "Prompt and at least one reference image are required"
      else
        let count := req.count.getD 5
        let results := (List.range count).map (fun i => generateSingleImage (callModel i) i)
        let sortedResults := results.mergeSort (fun a b => decide (a.index ≤ b.index))
        let images := sortedResults.map (fun r =>
          match r.image with
          | some s => if s == "" then none else some s
          | none => none)
        let errors := sortedResults.filterMap (fun r =>
          match r.error with
          | some e => if e == "" then none else some (r.index, e)
          | none => none)
        .success images errors

/-! ### Sample data used by the witnesses -/

/-- Leaf node `c1` of the sample forest. -/
def sampleC1 : GeneratedImage := .mk "c1" "uc1" "bc1" []

/-- Leaf node `c2` of the sample forest. -/
def sampleC2 : GeneratedImage := .mk "c2" "uc2" "bc2" []

/-- Depth-1 node `n1` with children `c1`, `c2`. -/
def sampleN1 : GeneratedImage := .mk "n1" "un1" "bn1" [sampleC1, sampleC2]

/-- Root `r1` with child `n1`. -/
def sampleR1 : GeneratedImage := .mk "r1" "ur1" "br1" [sampleN1]

/-- Childless root `r2`. -/
def sampleR2 : GeneratedImage := .mk "r2" "ur2" "br2" []

/-- A sample forest with two roots and nodes at depth 0, 1 and 2. -/
def sampleForest : List GeneratedImage := [sampleR1, sampleR2]

/-! ### Basic facts about the traversals -/

theorem allNodes_nil : allNodes [] = [] := by
  rw [allNodes]

theorem allNodes_cons (img : GeneratedImage) (rest : List GeneratedImage) :
    allNodes (img :: rest) = img :: (allNodes img.refinements ++ allNodes rest) := by
  rw [allNodes]

theorem containsId_cons (img : GeneratedImage) (rest : List GeneratedImage) (i : String) :
    containsId (img :: rest) i =
      (img.id == i || containsId img.refinements i || containsId rest i) := by
  rw [containsId]

theorem forestIds_cons (img : GeneratedImage) (rest : List GeneratedImage) :
    forestIds (img :: rest) = img.id :: (forestIds img.refinements ++ forestIds rest) := by
  simp [forestIds, allNodes_cons]

theorem containsId_nil (i : String) : containsId [] i = false := by
  rw [containsId]

theorem forestIds_nil : forestIds [] = [] := by
  simp [forestIds, allNodes_nil]

theorem mem_allNodes_of_mem {x : GeneratedImage} {F : List GeneratedImage}
    (hx : x ∈ F) : x ∈ allNodes F := by
  induction F with
  | nil => simp at hx
  | cons h rest ih =>
    rw [allNodes_cons]
    rcases List.mem_cons.mp hx with rfl | hx'
    · exact List.mem_cons_self _ _
    · exact List.mem_cons_of_mem _ (List.mem_append_right _ (ih hx'))

theorem mem_allNodes_child : ∀ (F : List GeneratedImage),
    ∀ p ∈ allNodes F, ∀ c ∈ p.refinements, c ∈ allNodes F := by
  intro F
  induction F using allNodes.induct with
  | case1 => simp [allNodes_nil]
  | case2 img rest ih1 ih2 =>
    intro p hp c hc
    rw [allNodes_cons] at hp ⊢
    rcases List.mem_cons.mp hp with rfl | hp'
    · exact List.mem_cons_of_mem _ (List.mem_append_left _ (mem_allNodes_of_mem hc))
    · rcases List.mem_append.mp hp' with h1 | h2
      · exact List.mem_cons_of_mem _ (List.mem_append_left _ (ih1 p h1 c hc))
      · exact List.mem_cons_of_mem _ (List.mem_append_right _ (ih2 p h2 c hc))

theorem containsId_iff_mem {F : List GeneratedImage} {i : String} :
    containsId F i = true ↔ i ∈ forestIds F := by
  induction F using allNodes.induct with
  | case1 => simp [containsId_nil, forestIds_nil]
  | case2 img rest ih1 ih2 =>
    rw [containsId_cons, forestIds_cons]
    simp only [Bool.or_eq_true, beq_iff_eq, ih1, ih2, List.mem_cons, List.mem_append,
      or_assoc]
    constructor
    · rintro (h | h | h) <;> simp [h]
    · rintro (h | h | h) <;> simp [h]

theorem containsId_eq_false_iff {F : List GeneratedImage} {i : String} :
    containsId F i = false ↔ i ∉ forestIds F := by
  rw [← containsId_iff_mem]
  cases h : containsId F i <;> simp

theorem findImageById_eq_findP (F : List GeneratedImage) (i : String) :
    findImageById F i = (allNodes F).find? (fun n => n.id == i) := by
  induction F, i using findImageById.induct with
  | case1 i => simp [findImageById, allNodes_nil]
  | case2 img rest =>
    rw [findImageById, allNodes_cons, List.find?_cons]
    simp
  | case3 img rest i hne found hfound ih =>
    have hbe : (img.id == i) = false := by simpa using hne
    rw [findImageById, allNodes_cons, List.find?_cons]
    rw [ih] at hfound ⊢
    simp [hbe, hfound, List.find?_append]
    exact fun h => (hne h).elim
  | case4 img rest i hne hnone ih1 ih2 =>
    have hbe : (img.id == i) = false := by simpa using hne
    rw [findImageById, allNodes_cons, List.find?_cons]
    rw [ih1] at hnone ⊢
    simp [hbe, hnone, List.find?_append, ih2]
    exact fun h => (hne h).elim

theorem findImageById_eq_none_iff {F : List GeneratedImage} {i : String} :
    findImageById F i = none ↔ containsId F i = false := by
  rw [findImageById_eq_findP, List.find?_eq_none, containsId_eq_false_iff, forestIds]
  simp

theorem findImageById_eq_some {F : List GeneratedImage} {i : String} {n : GeneratedImage}
    (h : findImageById F i = some n) : n ∈ allNodes F ∧ n.id = i := by
  rw [findImageById_eq_findP] at h
  exact ⟨List.mem_of_find?_eq_some h, by simpa using List.find?_some h⟩

/-- C1: `findImageById` performs a depth-first search over all roots and all
descendants and returns the first node (in preorder `allNodes` order) whose
id equals the given id; it returns `none` exactly when no node at any depth
has that id; and under the forest-wide id-uniqueness invariant the returned
node is the unique node with that id. -/
theorem findImageById_correct (F : List GeneratedImage) (i : String) :
    findImageById F i = (allNodes F).find? (fun n => n.id == i)
    ∧ (findImageById F i = none ↔ ∀ n ∈ allNodes F, n.id ≠ i)
    ∧ (idsUnique F → ∀ n, findImageById F i = some n →
        n.id = i ∧ ∀ m ∈ allNodes F, m.id = i → m = n) := by
  refine ⟨findImageById_eq_findP F i, ?_, ?_⟩
  · rw [findImageById_eq_none_iff, containsId_eq_false_iff, forestIds]
    simp
  · intro hu n hn
    obtain ⟨hmem, hid⟩ := findImageById_eq_some hn
    refine ⟨hid, fun m hm hmi => ?_⟩
    exact List.inj_on_of_nodup_map hu hm hmem (by rw [hmi, hid])

/-- Witness for C1 at the concrete `sampleForest`, looking up the depth-2
node `"c2"`. -/
theorem findImageById_correct_witness :
    idsUnique sampleForest
    ∧ findImageById sampleForest "c2" = some sampleC2
    ∧ sampleC2.id = "c2"
    ∧ ∀ m ∈ allNodes sampleForest, m.id = "c2" → m = sampleC2 := by
  have hu : idsUnique sampleForest := by
    simp [idsUnique, forestIds, allNodes, sampleForest, sampleR1, sampleR2, sampleN1,
      sampleC1, sampleC2, GeneratedImage.refinements, GeneratedImage.id]
  have hf : findImageById sampleForest "c2" = some sampleC2 := by
    simp [findImageById, sampleForest, sampleR1, sampleR2, sampleN1, sampleC1, sampleC2,
      GeneratedImage.refinements, GeneratedImage.id]
  have h := (findImageById_correct sampleForest "c2").2.2 hu sampleC2 hf
  exact ⟨hu, hf, h.1, h.2⟩

/-- C3: `addRefinementsToImage` is a no-op (returns the forest unchanged)
when the target id does not occur anywhere in the forest. -/
theorem addRefinementsToImage_noop : ∀ (F : List GeneratedImage) (t : String)
    (R : List GeneratedImage), containsId F t = false →
    addRefinementsToImage F t R = F := by
  intro F t R
  induction F, t, R using addRefinementsToImage.induct with
  | case1 t R => intro; rw [addRefinementsToImage]
  | case2 img rest t R ih1 ih2 =>
    intro hc
    rw [containsId_cons] at hc
    simp only [Bool.or_eq_false_iff] at hc
    obtain ⟨⟨hid, hrefs⟩, hrest⟩ := hc
    have hne : ¬img.id = t := by simpa using hid
    rw [addRefinementsToImage, if_neg hne, ih1 hne hrefs, ih2 hrest]
    obtain ⟨i, u, b, refs⟩ := img
    simp [GeneratedImage.id, GeneratedImage.url, GeneratedImage.base64,
      GeneratedImage.refinements]

/-- Witness for C3: adding under the absent id `"zz"` leaves `sampleForest`
unchanged. -/
theorem addRefinementsToImage_noop_witness :
    containsId sampleForest "zz" = false
    ∧ addRefinementsToImage sampleForest "zz" [sampleC1] = sampleForest := by
  have hc : containsId sampleForest "zz" = false := by
    simp [containsId, sampleForest, sampleR1, sampleR2, sampleN1, sampleC1, sampleC2,
      GeneratedImage.refinements, GeneratedImage.id]
  exact ⟨hc, addRefinementsToImage_noop sampleForest "zz" [sampleC1] hc⟩

/-! ### Lemmas about `addRefinementsToImage` -/

theorem allNodes_append (F1 F2 : List GeneratedImage) :
    allNodes (F1 ++ F2) = allNodes F1 ++ allNodes F2 := by
  induction F1 with
  | nil => simp [allNodes_nil]
  | cons h rest ih => simp [allNodes_cons, ih]

theorem findImageById_append (F1 F2 : List GeneratedImage) (i : String) :
    findImageById (F1 ++ F2) i = (findImageById F1 i).or (findImageById F2 i) := by
  simp [findImageById_eq_findP, allNodes_append, List.find?_append]

theorem topIds_add (F : List GeneratedImage) (t : String) (R : List GeneratedImage) :
    (addRefinementsToImage F t R).map GeneratedImage.id = F.map GeneratedImage.id := by
  induction F with
  | nil => rw [addRefinementsToImage]
  | cons img rest ih =>
    rw [addRefinementsToImage]
    by_cases hid : img.id = t <;> simp [hid, ih]

theorem find_add_of_absent : ∀ (F : List GeneratedImage) (t : String)
    (R : List GeneratedImage) (i : String), containsId F i = false →
    containsId R i = false →
    findImageById (addRefinementsToImage F t R) i = none := by
  intro F t R
  induction F, t, R using addRefinementsToImage.induct with
  | case1 t R =>
    intro i _ _
    rw [addRefinementsToImage, findImageById]
  | case2 img rest t R ih1 ih2 =>
    intro i hF hR
    rw [containsId_cons] at hF
    simp only [Bool.or_eq_false_iff] at hF
    obtain ⟨⟨hid, hrefs⟩, hrest⟩ := hF
    have hne : ¬img.id = i := by simpa using hid
    rw [addRefinementsToImage]
    by_cases htar : img.id = t
    · rw [if_pos htar, findImageById]
      simp only [GeneratedImage.id_mk, GeneratedImage.refinements_mk]
      rw [if_neg hne, findImageById_append,
        findImageById_eq_none_iff.mpr hrefs, findImageById_eq_none_iff.mpr hR]
      simpa using ih2 i hrest hR
    · rw [if_neg htar, findImageById]
      simp only [GeneratedImage.id_mk, GeneratedImage.refinements_mk]
      rw [if_neg hne, ih1 htar i hrefs hR]
      exact ih2 i hrest hR

theorem find_add_target : ∀ (F : List GeneratedImage) (t : String)
    (R : List GeneratedImage) (n : GeneratedImage), findImageById F t = some n →
    findImageById (addRefinementsToImage F t R) t =
      some (.mk n.id n.url n.base64 (n.refinements ++ R)) := by
  intro F t R
  induction F, t, R using addRefinementsToImage.induct with
  | case1 t R =>
    intro n hn
    rw [findImageById] at hn
    exact absurd hn (by simp)
  | case2 img rest t R ih1 ih2 =>
    intro n hn
    rw [findImageById] at hn
    rw [addRefinementsToImage]
    by_cases htar : img.id = t
    · rw [if_pos htar] at hn
      obtain rfl : img = n := by simpa using hn
      rw [if_pos htar, findImageById]
      simp [htar]
    · rw [if_neg htar] at hn
      rw [if_neg htar, findImageById]
      simp only [GeneratedImage.id_mk, GeneratedImage.refinements_mk]
      rw [if_neg htar]
      cases hr : findImageById img.refinements t with
      | none =>
        rw [hr] at hn
        have hrefs : containsId img.refinements t = false :=
          findImageById_eq_none_iff.mp hr
        rw [addRefinementsToImage_noop img.refinements t R hrefs, hr]
        exact ih2 n hn
      | some f =>
        rw [hr] at hn
        obtain rfl : f = n := by simpa using hn
        rw [ih1 htar f hr]

theorem find_add_other : ∀ (F : List GeneratedImage) (t : String)
    (R : List GeneratedImage) (i : String), ¬i = t → containsId R i = false →
    ∀ m, findImageById F i = some m →
      ∃ m', findImageById (addRefinementsToImage F t R) i = some m'
        ∧ m'.id = m.id ∧ m'.url = m.url ∧ m'.base64 = m.base64
        ∧ m'.refinements.map GeneratedImage.id =
            m.refinements.map GeneratedImage.id := by
  intro F t R
  induction F, t, R using addRefinementsToImage.induct with
  | case1 t R =>
    intro i _ _ m hm
    rw [findImageById] at hm
    exact absurd hm (by simp)
  | case2 img rest t R ih1 ih2 =>
    intro i hit hR m hm
    rw [findImageById] at hm
    rw [addRefinementsToImage]
    by_cases hid : img.id = i
    · rw [if_pos hid] at hm
      obtain rfl : img = m := by simpa using hm
      have htar : ¬img.id = t := by rw [hid]; exact hit
      rw [if_neg htar, findImageById]
      simp only [GeneratedImage.id_mk, GeneratedImage.url_mk,
        GeneratedImage.base64_mk, GeneratedImage.refinements_mk]
      rw [if_pos hid]
      exact ⟨_, rfl, rfl, rfl, rfl, topIds_add img.refinements t R⟩
    · rw [if_neg hid] at hm
      cases hr : findImageById img.refinements i with
      | none =>
        rw [hr] at hm
        simp only [] at hm
        have hrefs : containsId img.refinements i = false :=
          findImageById_eq_none_iff.mp hr
        by_cases htar : img.id = t
        · rw [if_pos htar, findImageById]
          simp only [GeneratedImage.id_mk, GeneratedImage.refinements_mk]
          rw [if_neg hid, findImageById_append,
            findImageById_eq_none_iff.mpr hrefs,
            findImageById_eq_none_iff.mpr hR]
          obtain ⟨m', hm', hrest'⟩ := ih2 i hit hR m hm
          exact ⟨m', by simpa using hm', hrest'⟩
        · rw [if_neg htar, findImageById]
          simp only [GeneratedImage.id_mk, GeneratedImage.refinements_mk]
          rw [if_neg hid, find_add_of_absent img.refinements t R i hrefs hR]
          exact ih2 i hit hR m hm
      | some f =>
        rw [hr] at hm
        obtain rfl : f = m := by simpa using hm
        by_cases htar : img.id = t
        · rw [if_pos htar, findImageById]
          simp only [GeneratedImage.id_mk, GeneratedImage.refinements_mk]
          rw [if_neg hid, findImageById_append, hr]
          exact ⟨f, rfl, rfl, rfl, rfl, rfl⟩
        · rw [if_neg htar, findImageById]
          simp only [GeneratedImage.id_mk, GeneratedImage.refinements_mk]
          rw [if_neg hid]
          obtain ⟨m', hm', h1, h2, h3, h4⟩ := ih1 htar i hit hR f hr
          rw [hm']
          exact ⟨m', rfl, h1, h2, h3, h4⟩

/-- C2: under the id-uniqueness invariant, adding `R` under a resolvable
`targetId` appends `R` after the target's prior children (prior order
preserved), and every other node of the forest keeps its id, its image
payload (`url`, `base64`) and its children (as the sequence of child ids).
The spec's freshness invariant for the new records appears as the
hypothesis that the id being inspected does not occur in `R`. -/
theorem addRefinementsToImage_correct (F : List GeneratedImage) (t : String)
    (R : List GeneratedImage) (_hu : idsUnique F) (n : GeneratedImage)
    (hn : findImageById F t = some n) :
    findImageById (addRefinementsToImage F t R) t =
      some (.mk n.id n.url n.base64 (n.refinements ++ R))
    ∧ ∀ i, i ≠ t → containsId R i = false →
        ∀ m, findImageById F i = some m →
          ∃ m', findImageById (addRefinementsToImage F t R) i = some m'
            ∧ m'.id = m.id ∧ m'.url = m.url ∧ m'.base64 = m.base64
            ∧ m'.refinements.map GeneratedImage.id =
                m.refinements.map GeneratedImage.id :=
  ⟨find_add_target F t R n hn,
   fun i hit hR m hm => find_add_other F t R i hit hR m hm⟩

/-- A fresh record attached by the C2 witness. -/
def sampleX : GeneratedImage := .mk "x" "ux" "bx" []

/-- Witness for C2: attaching `sampleX` under `"n1"` in `sampleForest`
appends it after the prior children `c1, c2`, while node `"c1"` keeps its
id, payload and children. -/
theorem addRefinementsToImage_correct_witness :
    idsUnique sampleForest
    ∧ findImageById sampleForest "n1" = some sampleN1
    ∧ findImageById (addRefinementsToImage sampleForest "n1" [sampleX]) "n1" =
        some (.mk "n1" "un1" "bn1" [sampleC1, sampleC2, sampleX])
    ∧ ∃ m', findImageById (addRefinementsToImage sampleForest "n1" [sampleX]) "c1" =
          some m'
        ∧ m'.id = sampleC1.id ∧ m'.url = sampleC1.url ∧ m'.base64 = sampleC1.base64
        ∧ m'.refinements.map GeneratedImage.id =
            sampleC1.refinements.map GeneratedImage.id := by
  have hu : idsUnique sampleForest := by
    simp [idsUnique, forestIds, allNodes, sampleForest, sampleR1, sampleR2, sampleN1,
      sampleC1, sampleC2, GeneratedImage.refinements, GeneratedImage.id]
  have hn : findImageById sampleForest "n1" = some sampleN1 := by
    simp [findImageById, sampleForest, sampleR1, sampleR2, sampleN1, sampleC1, sampleC2,
      GeneratedImage.refinements, GeneratedImage.id]
  have h := addRefinementsToImage_correct sampleForest "n1" [sampleX] hu sampleN1 hn
  refine ⟨hu, hn, ?_, ?_⟩
  · have h1 := h.1
    simpa [sampleN1, GeneratedImage.id, GeneratedImage.url, GeneratedImage.base64,
      GeneratedImage.refinements] using h1
  · refine h.2 "c1" (by decide) ?_ sampleC1 ?_
    · simp [containsId, containsId_nil, sampleX, GeneratedImage.refinements,
        GeneratedImage.id]
    · simp [findImageById, sampleForest, sampleR1, sampleR2, sampleN1, sampleC1,
        sampleC2, GeneratedImage.refinements, GeneratedImage.id]

/-! ### Lemmas about `findSiblings` -/

theorem id_mem_forestIds {x : GeneratedImage} {F : List GeneratedImage}
    (h : x ∈ allNodes F) : x.id ∈ forestIds F :=
  List.mem_map_of_mem _ h

theorem top_any_containsId {F : List GeneratedImage} {i : String}
    (h : (F.any fun img => img.id == i) = true) : containsId F i = true := by
  rw [List.any_eq_true] at h
  obtain ⟨x, hx, hxi⟩ := h
  rw [containsId_iff_mem]
  have := id_mem_forestIds (mem_allNodes_of_mem hx)
  rwa [show x.id = i by simpa using hxi] at this

theorem mem_forestIds_iff {F : List GeneratedImage} {i : String} :
    i ∈ forestIds F ↔ ∃ img ∈ F, img.id = i ∨ i ∈ forestIds img.refinements := by
  induction F with
  | nil => simp [forestIds_nil]
  | cons img rest ih =>
    rw [forestIds_cons]
    simp only [List.mem_cons, List.mem_append, ih]
    constructor
    · rintro (h | h | ⟨x, hx, hh⟩)
      · exact ⟨img, Or.inl rfl, Or.inl h.symm⟩
      · exact ⟨img, Or.inl rfl, Or.inr h⟩
      · exact ⟨x, Or.inr hx, hh⟩
    · rintro ⟨x, hx | hx, hh⟩
      · subst hx
        rcases hh with h | h
        · exact Or.inl h.symm
        · exact Or.inr (Or.inl h)
      · exact Or.inr (Or.inr ⟨x, hx, hh⟩)

theorem findSiblings_none_char :
    (∀ F i, findSiblings F i = none ↔ containsId F i = false)
    ∧ ∀ F i, findSiblingsLoop F i = none ↔
        ∀ img ∈ F, containsId img.refinements i = false := by
  refine findSiblings.mutual_induct
    (fun F i => findSiblings F i = none ↔ containsId F i = false)
    (fun F i => findSiblingsLoop F i = none ↔
      ∀ img ∈ F, containsId img.refinements i = false)
    ?_ ?_ ?_ ?_ ?_ ?_
  · intro F i h
    rw [findSiblings, if_pos h]
    simp [top_any_containsId h]
  · intro F i h ih
    rw [findSiblings, if_neg h, ih, containsId_eq_false_iff, mem_forestIds_iff]
    constructor
    · intro hall hex
      obtain ⟨img, hmem, hcase⟩ := hex
      rcases hcase with hc | hc
      · exact h (List.any_eq_true.mpr ⟨img, hmem, by simpa using hc⟩)
      · exact (containsId_eq_false_iff.mp (hall img hmem)) hc
    · intro hnone img hmem
      rw [containsId_eq_false_iff]
      intro hin
      exact hnone ⟨img, hmem, Or.inr hin⟩
  · intro i
    rw [findSiblingsLoop]
    simp
  · intro img rest i h
    rw [findSiblingsLoop, if_pos h]
    simp [top_any_containsId h]
  · intro img rest i h found hfound ih
    rw [findSiblingsLoop, if_neg h, hfound]
    have hct : containsId img.refinements i = true := by
      cases hcc : containsId img.refinements i
      · exact absurd (ih.mpr hcc) (by simp [hfound])
      · rfl
    simp [hct]
  · intro img rest i h hnone ih1 ih2
    rw [findSiblingsLoop, if_neg h, hnone, ih2]
    constructor
    · intro hall x hx
      rcases List.mem_cons.mp hx with rfl | hx'
      · exact ih1.mp hnone
      · exact hall x hx'
    · intro hall x hx
      exact hall x (List.mem_cons_of_mem _ hx)

theorem findSiblings_mem_char :
    (∀ F i sibs, findSiblings F i = some sibs → ∃ x ∈ sibs, x.id = i)
    ∧ ∀ F i sibs, findSiblingsLoop F i = some sibs → ∃ x ∈ sibs, x.id = i := by
  refine findSiblings.mutual_induct
    (fun F i => ∀ sibs, findSiblings F i = some sibs → ∃ x ∈ sibs, x.id = i)
    (fun F i => ∀ sibs, findSiblingsLoop F i = some sibs → ∃ x ∈ sibs, x.id = i)
    ?_ ?_ ?_ ?_ ?_ ?_
  · intro F i h sibs hs
    rw [findSiblings, if_pos h] at hs
    obtain rfl : F = sibs := by simpa using hs
    obtain ⟨x, hx, hxi⟩ := List.any_eq_true.mp h
    exact ⟨x, hx, by simpa using hxi⟩
  · intro F i h ih sibs hs
    rw [findSiblings, if_neg h] at hs
    exact ih sibs hs
  · intro i sibs hs
    rw [findSiblingsLoop] at hs
    exact absurd hs (by simp)
  · intro img rest i h sibs hs
    rw [findSiblingsLoop, if_pos h] at hs
    obtain rfl : img.refinements = sibs := by simpa using hs
    obtain ⟨x, hx, hxi⟩ := List.any_eq_true.mp h
    exact ⟨x, hx, by simpa using hxi⟩
  · intro img rest i h found hfound ih sibs hs
    rw [findSiblingsLoop, if_neg h, hfound] at hs
    obtain rfl : found = sibs := by simpa using hs
    exact ih found hfound
  · intro img rest i h hnone ih1 ih2 sibs hs
    rw [findSiblingsLoop, if_neg h, hnone] at hs
    exact ih2 sibs hs

theorem idsUnique_cons {img : GeneratedImage} {rest : List GeneratedImage}
    (hu : idsUnique (img :: rest)) :
    img.id ∉ forestIds img.refinements ∧ img.id ∉ forestIds rest
    ∧ idsUnique img.refinements ∧ idsUnique rest
    ∧ ∀ x ∈ forestIds img.refinements, x ∉ forestIds rest := by
  rw [idsUnique, forestIds_cons, List.nodup_cons, List.nodup_append] at hu
  obtain ⟨hni, hn1, hn2, hdisj⟩ := hu
  rw [List.mem_append] at hni
  push_neg at hni
  exact ⟨hni.1, hni.2, hn1, hn2, fun x hx hx' => hdisj hx hx'⟩

theorem child_id_ne_top : ∀ (F : List GeneratedImage), idsUnique F →
    ∀ p ∈ allNodes F, ∀ c ∈ p.refinements, ∀ r ∈ F, ¬r.id = c.id := by
  intro F
  induction F using allNodes.induct with
  | case1 => simp [allNodes_nil]
  | case2 img rest ih1 ih2 =>
    intro hu p hp c hc r hr heq
    obtain ⟨h1, h2, hu1, hu2, hdisj⟩ := idsUnique_cons hu
    rw [allNodes_cons] at hp
    have hcid : c.id ∈ forestIds img.refinements ∨ c.id ∈ forestIds rest := by
      rcases List.mem_cons.mp hp with rfl | hp'
      · exact Or.inl (id_mem_forestIds (mem_allNodes_of_mem hc))
      · rcases List.mem_append.mp hp' with ha | hb
        · exact Or.inl (id_mem_forestIds (mem_allNodes_child _ p ha c hc))
        · exact Or.inr (id_mem_forestIds (mem_allNodes_child _ p hb c hc))
    rcases List.mem_cons.mp hr with rfl | hr'
    · rcases hcid with hca | hcb
      · rw [heq] at h1; exact h1 hca
      · rw [heq] at h2; exact h2 hcb
    · have hrid : r.id ∈ forestIds rest := id_mem_forestIds (mem_allNodes_of_mem hr')
      rcases hcid with hca | hcb
      · rw [← heq] at hca
        exact hdisj r.id hca hrid
      · rcases List.mem_cons.mp hp with rfl | hp'
        · exact hdisj c.id (id_mem_forestIds (mem_allNodes_of_mem hc)) hcb
        · rcases List.mem_append.mp hp' with ha | hb
          · exact hdisj c.id (id_mem_forestIds (mem_allNodes_child _ p ha c hc)) hcb
          · exact ih2 hu2 p hb c hc r hr' heq

theorem findSiblings_parent : ∀ (F : List GeneratedImage) (i : String),
    idsUnique F → ∀ p ∈ allNodes F, (∃ c ∈ p.refinements, c.id = i) →
    findSiblings F i = some p.refinements := by
  intro F
  induction F using allNodes.induct with
  | case1 => simp [allNodes_nil]
  | case2 img rest ih1 ih2 =>
    intro i hu p hp ⟨c, hc, hci⟩
    obtain ⟨h1, h2, hu1, hu2, hdisj⟩ := idsUnique_cons hu
    have hnotop : ∀ r ∈ img :: rest, ¬(r.id == i) = true := by
      intro r hr hbe
      have := child_id_ne_top (img :: rest) hu p hp c hc r hr
      rw [hci] at this
      exact this (by simpa using hbe)
    have htop : ((img :: rest).any fun x => x.id == i) = false := by
      rw [← Bool.not_eq_true, List.any_eq_true]
      rintro ⟨x, hx, hbe⟩
      exact hnotop x hx hbe
    rw [findSiblings, if_neg (by rw [htop]; exact Bool.false_ne_true)]
    rw [allNodes_cons] at hp
    rcases List.mem_cons.mp hp with rfl | hp'
    · rw [findSiblingsLoop, if_pos (List.any_eq_true.mpr ⟨c, hc, by simpa using hci⟩)]
    · rcases List.mem_append.mp hp' with ha | hb
      · have hdirfalse : ¬(img.refinements.any fun r => r.id == i) = true := by
          rw [List.any_eq_true]
          rintro ⟨r, hr, hbe⟩
          have := child_id_ne_top img.refinements hu1 p ha c hc r hr
          rw [hci] at this
          exact this (by simpa using hbe)
        rw [findSiblingsLoop, if_neg hdirfalse, ih1 i hu1 p ha ⟨c, hc, hci⟩]
      · have hcin : i ∈ forestIds rest := by
          have := id_mem_forestIds (mem_allNodes_child _ p hb c hc)
          rwa [hci] at this
        have hdirfalse : ¬(img.refinements.any fun r => r.id == i) = true := by
          rw [List.any_eq_true]
          rintro ⟨r, hr, hbe⟩
          have hrid : r.id ∈ forestIds img.refinements :=
            id_mem_forestIds (mem_allNodes_of_mem hr)
          rw [show r.id = i by simpa using hbe] at hrid
          exact hdisj i hrid hcin
        have hrefsnone : findSiblings img.refinements i = none := by
          rw [findSiblings_none_char.1, containsId_eq_false_iff]
          intro hin
          exact hdisj i hin hcin
        rw [findSiblingsLoop, if_neg hdirfalse, hrefsnone]
        have hresttop : ¬(rest.any fun x => x.id == i) = true := by
          rw [List.any_eq_true]
          rintro ⟨x, hx, hbe⟩
          exact hnotop x (List.mem_cons_of_mem _ hx) hbe
        have := ih2 i hu2 p hb ⟨c, hc, hci⟩
        rwa [findSiblings, if_neg hresttop] at this

/-- C4: for an id present in the forest, `findSiblings` returns exactly the
sequence that directly contains the node with that id — the root sequence
itself when the id names a root, otherwise the immediate parent's
`refinements` sequence — and it returns `none` for ids absent from the
forest. -/
theorem findSiblings_correct (F : List GeneratedImage) (i : String)
    (hu : idsUnique F) :
    (containsId F i = false → findSiblings F i = none)
    ∧ ((∃ r ∈ F, r.id = i) → findSiblings F i = some F)
    ∧ ∀ p ∈ allNodes F, (∃ c ∈ p.refinements, c.id = i) →
        findSiblings F i = some p.refinements := by
  refine ⟨?_, ?_, fun p hp hex => findSiblings_parent F i hu p hp hex⟩
  · intro hc
    rw [findSiblings_none_char.1]
    exact hc
  · rintro ⟨r, hr, hri⟩
    rw [findSiblings, if_pos (List.any_eq_true.mpr ⟨r, hr, by simpa using hri⟩)]

/-- Witness for C4 on `sampleForest`: the root id `"r2"` resolves to the
root sequence, the depth-2 id `"c1"` resolves to its parent `n1`'s children,
and the absent id `"zz"` resolves to `none`. -/
theorem findSiblings_correct_witness :
    idsUnique sampleForest
    ∧ findSiblings sampleForest "r2" = some sampleForest
    ∧ findSiblings sampleForest "c1" = some [sampleC1, sampleC2]
    ∧ findSiblings sampleForest "zz" = none := by
  have hu : idsUnique sampleForest := by
    simp [idsUnique, forestIds, allNodes, sampleForest, sampleR1, sampleR2, sampleN1,
      sampleC1, sampleC2, GeneratedImage.refinements, GeneratedImage.id]
  refine ⟨hu, ?_, ?_, ?_⟩
  · exact (findSiblings_correct sampleForest "r2" hu).2.1
      ⟨sampleR2, by simp [sampleForest], by simp [sampleR2, GeneratedImage.id]⟩
  · have hmem : sampleN1 ∈ allNodes sampleForest := by
      simp [allNodes, sampleForest, sampleR1, sampleR2, sampleN1,
        GeneratedImage.refinements]
    have h := (findSiblings_correct sampleForest "c1" hu).2.2 sampleN1 hmem
      ⟨sampleC1, by simp [sampleN1, GeneratedImage.refinements],
        by simp [sampleC1, GeneratedImage.id]⟩
    simpa [sampleN1, GeneratedImage.refinements] using h
  · exact (findSiblings_correct sampleForest "zz" hu).1
      (by simp [containsId, containsId_nil, sampleForest, sampleR1, sampleR2, sampleN1,
        sampleC1, sampleC2, GeneratedImage.refinements, GeneratedImage.id])

/-- C10: sibling resolution succeeds exactly when the id lookup succeeds,
and a successful sibling sequence contains an element with the looked-up
id. -/
theorem findSiblings_agrees_findImageById (F : List GeneratedImage) (i : String) :
    ((findSiblings F i).isSome ↔ (findImageById F i).isSome)
    ∧ ∀ sibs, findSiblings F i = some sibs → ∃ x ∈ sibs, x.id = i := by
  constructor
  · rw [← Option.ne_none_iff_isSome, ← Option.ne_none_iff_isSome,
      Ne, Ne, findSiblings_none_char.1, findImageById_eq_none_iff]
  · exact fun sibs hs => findSiblings_mem_char.1 F i sibs hs

/-- Witness for C10 at `sampleForest` and id `"c2"`: both resolutions
succeed and the sibling list contains a node with id `"c2"`. -/
theorem findSiblings_agrees_witness :
    (findSiblings sampleForest "c2").isSome = true
    ∧ (findImageById sampleForest "c2").isSome = true
    ∧ ∃ sibs, findSiblings sampleForest "c2" = some sibs ∧ ∃ x ∈ sibs, x.id = "c2" := by
  have hs : findSiblings sampleForest "c2" = some [sampleC1, sampleC2] := by
    simp [findSiblings, findSiblingsLoop, sampleForest, sampleR1, sampleR2, sampleN1,
      sampleC1, sampleC2, GeneratedImage.refinements, GeneratedImage.id]
  have hmem := (findSiblings_agrees_findImageById sampleForest "c2").2
    [sampleC1, sampleC2] hs
  have hiff := (findSiblings_agrees_findImageById sampleForest "c2").1
  refine ⟨by rw [hs]; rfl, ?_, ⟨[sampleC1, sampleC2], hs, hmem⟩⟩
  rw [← hiff, hs]
  rfl

/-! ### Keyboard navigation: C5 -/

/-- C5: with a node selected, no modal open, and the selected id at index
`i` of its resolved sibling sequence, ArrowLeft selects the sibling at
`i - 1` (wrapping to the last index when `i = 0`) and ArrowRight selects
the sibling at `i + 1` (wrapping to index 0 when `i` is the last index). -/
theorem handleKeyDown_wraparound (F : List GeneratedImage) (s : String)
    (sibs : List GeneratedImage) (i : Nat) (hs : s ≠ "")
    (hsibs : findSiblings F s = some sibs)
    (hidx : sibs.findIdx? (fun img => img.id == s) = some i) :
    (∀ img, sibs.get? (if i = 0 then sibs.length - 1 else i - 1) = some img →
        handleKeyDown (some s) none F .arrowLeft = some img.id)
    ∧ ∀ img, sibs.get? (if i = sibs.length - 1 then 0 else i + 1) = some img →
        handleKeyDown (some s) none F .arrowRight = some img.id := by
  have hbe : (s == "") = false := by simpa using hs
  have hlt : i < sibs.length := by
    have h := List.findIdx?_eq_some_iff_findIdx_eq.mp hidx
    exact h.1
  constructor
  · intro img himg
    have hidxeq : (if i > 0 then i - 1 else sibs.length - 1)
        = (if i = 0 then sibs.length - 1 else i - 1) := by
      rcases Nat.eq_zero_or_pos i with rfl | hpos
      · simp
      · simp [hpos, Nat.pos_iff_ne_zero.mp hpos]
    simp only [handleKeyDown, hbe, truthy, Bool.or_self, Bool.false_or, if_neg,
      Bool.false_eq_true, not_false_iff, ite_false, hsibs, hidx, hidxeq, himg]
  · intro img himg
    have hidxeq : (if i < sibs.length - 1 then i + 1 else 0)
        = (if i = sibs.length - 1 then 0 else i + 1) := by
      rcases Nat.lt_or_ge i (sibs.length - 1) with hlt' | hge
      · rw [if_pos hlt', if_neg (by omega)]
      · rw [if_neg (by omega), if_pos (by omega)]
    simp only [handleKeyDown, hbe, truthy, Bool.or_self, Bool.false_or, if_neg,
      Bool.false_eq_true, not_false_iff, ite_false, hsibs, hidx, hidxeq, himg]

/-- Root `a` of the three-sibling navigation example. -/
def navA : GeneratedImage := .mk "a" "ua" "ba" []

/-- Root `b` of the three-sibling navigation example. -/
def navB : GeneratedImage := .mk "b" "ub" "bb" []

/-- Root `c` of the three-sibling navigation example. -/
def navC : GeneratedImage := .mk "c" "uc" "bc" []

/-- The three-sibling forest `[a, b, c]` of the claim's example. -/
def navForest : List GeneratedImage := [navA, navB, navC]

/-- Witness for C5 on siblings `[a, b, c]`: with `c` selected, ArrowRight
wraps to `a`; with `a` selected, ArrowLeft wraps to `c`. -/
theorem handleKeyDown_wraparound_witness :
    handleKeyDown (some "c") none navForest .arrowRight = some "a"
    ∧ handleKeyDown (some "a") none navForest .arrowLeft = some "c" := by
  have hsibsC : findSiblings navForest "c" = some navForest := by
    simp [findSiblings, navForest, navA, navB, navC, GeneratedImage.id]
  have hidxC : navForest.findIdx? (fun img => img.id == "c") = some 2 := by
    simp [List.findIdx?, navForest, navA, navB, navC, GeneratedImage.id]
  have hsibsA : findSiblings navForest "a" = some navForest := by
    simp [findSiblings, navForest, navA, navB, navC, GeneratedImage.id]
  have hidxA : navForest.findIdx? (fun img => img.id == "a") = some 0 := by
    simp [List.findIdx?, navForest, navA, navB, navC, GeneratedImage.id]
  constructor
  · have h := (handleKeyDown_wraparound navForest "c" navForest 2 (by decide)
      hsibsC hidxC).2 navA (by simp [navForest])
    simpa [navA] using h
  · have h := (handleKeyDown_wraparound navForest "a" navForest 0 (by decide)
      hsibsA hidxA).1 navC (by simp [navForest])
    simpa [navC] using h

/-! ### Refinement orchestrator: C6, C7, C8 -/

/-- C6: a refinement invocation whose instruction is empty after trimming,
or for which no credential is present, returns before the external
generation call is dispatched (`.2 = false`) and leaves the forest
unchanged; in the missing-credential case with a non-empty instruction the
missing-credential error is surfaced. -/
theorem handleRefine_preconditions (st : RefineState) (hasApiKey : Bool)
    (p : GeneratedImage) (res : Except String (List (Option String)))
    (ids : Nat → String)
    (h : jsTrim st.refinementPrompt = "" ∨ hasApiKey = false) :
    (handleRefine st hasApiKey p res ids).2 = false
    ∧ (handleRefine st hasApiKey p res ids).1.generatedImages = st.generatedImages
    ∧ (jsTrim st.refinementPrompt ≠ "" → hasApiKey = false →
        (handleRefine st hasApiKey p res ids).1.error =
          some "Please enter your Gemini API key first") := by
  by_cases hp : jsTrim st.refinementPrompt = ""
  · refine ⟨?_, ?_, fun hne _ => absurd hp hne⟩ <;>
      simp [handleRefine, hp]
  · have hk : hasApiKey = false := h.resolve_left hp
    subst hk
    refine ⟨?_, ?_, fun _ _ => ?_⟩ <;>
      simp [handleRefine, hp]

/-- The refine-state used by the C6 witness: a whitespace-only instruction. -/
def blankState : RefineState :=
  { generatedImages := sampleForest, selectedImageId := some "c1",
    refinementPrompt := "   ", error := none, refiningImageId := none }

/-- The refine-state used by the C6/C7/C8 witnesses: a real instruction. -/
def readyState : RefineState :=
  { generatedImages := sampleForest, selectedImageId := some "n1",
    refinementPrompt := "make brighter", error := none, refiningImageId := none }

/-- The fresh-id supply used by the refine witnesses. -/
def witnessIds : Nat → String := fun k => if k = 0 then "g0" else "g1"

/-- Witness for C6: a whitespace-only instruction is rejected before any
call with the forest unchanged, and a missing credential with a real
instruction surfaces the missing-credential error without a call. -/
theorem handleRefine_preconditions_witness :
    ((handleRefine blankState true sampleN1 (.ok []) witnessIds).2 = false
      ∧ (handleRefine blankState true sampleN1 (.ok []) witnessIds).1.generatedImages
          = blankState.generatedImages)
    ∧ ((handleRefine readyState false sampleN1 (.ok []) witnessIds).2 = false
      ∧ (handleRefine readyState false sampleN1 (.ok []) witnessIds).1.error
          = some "Please enter your Gemini API key first") := by
  have h1 := handleRefine_preconditions blankState true sampleN1 (.ok []) witnessIds
    (Or.inl (by decide))
  have h2 := handleRefine_preconditions readyState false sampleN1 (.ok []) witnessIds
    (Or.inr rfl)
  exact ⟨⟨h1.1, h1.2.1⟩, ⟨h2.1, h2.2.2 (by decide) rfl⟩⟩

/-- C8: with the preconditions met, a failed batch call (transport error or
non-ok response, modelled as `.error e`) leaves the forest exactly as it
was and surfaces the error; a successful call attaches all surviving
results of the batch to the target node in one step (when the target is
still present and ids are unique, its children become the prior children
followed by every surviving record, in order), and attaches none of them
when the target has vanished. -/
theorem handleRefine_failure_atomic (st : RefineState) (p : GeneratedImage)
    (ids : Nat → String) (hprompt : jsTrim st.refinementPrompt ≠ "") :
    (∀ e, (handleRefine st true p (.error e) ids).1.generatedImages
          = st.generatedImages
        ∧ (handleRefine st true p (.error e) ids).1.error = some e)
    ∧ (∀ imgs n, idsUnique st.generatedImages →
        findImageById st.generatedImages p.id = some n →
        findImageById (handleRefine st true p (.ok imgs) ids).1.generatedImages p.id
          = some (.mk n.id n.url n.base64
              (n.refinements ++ mkRefinedImages (imgs.filterMap (fun x => x)) ids)))
    ∧ ∀ imgs, findImageById st.generatedImages p.id = none →
        (handleRefine st true p (.ok imgs) ids).1.generatedImages
          = st.generatedImages := by
  refine ⟨fun e => ?_, fun imgs n _hu hn => ?_, fun imgs hn => ?_⟩
  · constructor <;> simp [handleRefine, hprompt]
  · have : (handleRefine st true p (.ok imgs) ids).1.generatedImages
        = addRefinementsToImage st.generatedImages p.id
            (mkRefinedImages (imgs.filterMap (fun x => x)) ids) := by
      simp [handleRefine, hprompt]
    rw [this]
    exact find_add_target st.generatedImages p.id _ n hn
  · have : (handleRefine st true p (.ok imgs) ids).1.generatedImages
        = addRefinementsToImage st.generatedImages p.id
            (mkRefinedImages (imgs.filterMap (fun x => x)) ids) := by
      simp [handleRefine, hprompt]
    rw [this]
    exact addRefinementsToImage_noop _ _ _ (findImageById_eq_none_iff.mp hn)

/-- Witness for C8: on `readyState` (target `n1` of `sampleForest`), a
transport failure leaves the forest unchanged with the error surfaced, and
a successful batch with two surviving slots of three attaches exactly those
two records after `c1, c2`. -/
theorem handleRefine_failure_atomic_witness :
    jsTrim readyState.refinementPrompt ≠ ""
    ∧ (handleRefine readyState true sampleN1 (.error "boom") witnessIds).1.generatedImages
        = readyState.generatedImages
    ∧ (handleRefine readyState true sampleN1 (.error "boom") witnessIds).1.error
        = some "boom"
    ∧ findImageById
        (handleRefine readyState true sampleN1
          (.ok [some "data:image/png;base64,AA", none, some "data:image/png;base64,BB"])
          witnessIds).1.generatedImages "n1"
        = some (.mk "n1" "un1" "bn1"
            [sampleC1, sampleC2,
             .mk "g0" "data:image/png;base64,AA" "AA" [],
             .mk "g1" "data:image/png;base64,BB" "BB" []]) := by
  have hprompt : jsTrim readyState.refinementPrompt ≠ "" := by decide
  have h := handleRefine_failure_atomic readyState sampleN1 witnessIds hprompt
  have hu : idsUnique readyState.generatedImages := by
    simp [idsUnique, forestIds, allNodes, readyState, sampleForest, sampleR1, sampleR2,
      sampleN1, sampleC1, sampleC2, GeneratedImage.refinements, GeneratedImage.id]
  have hn : findImageById readyState.generatedImages sampleN1.id = some sampleN1 := by
    simp [findImageById, readyState, sampleForest, sampleR1, sampleR2, sampleN1,
      sampleC1, sampleC2, GeneratedImage.refinements, GeneratedImage.id]
  refine ⟨hprompt, (h.1 "boom").1, (h.1 "boom").2, ?_⟩
  have h2 := h.2.1 [some "data:image/png;base64,AA", none, some "data:image/png;base64,BB"]
    sampleN1 hu hn
  have : sampleN1.id = "n1" := by simp [sampleN1]
  rw [this] at h2
  rw [h2]
  simp [sampleN1, mkRefinedImages, witnessIds, List.enum]
  constructor <;> decide

/-- The state used by the C7 counterexample: a one-root forest that does
not contain the stale target id `"zz"`. -/
def staleState : RefineState :=
  { generatedImages := [navA], selectedImageId := some "zz",
    refinementPrompt := "brighter", error := none, refiningImageId := none }

/-- The stale parent record of the C7 counterexample: its id `"zz"` does
not resolve in `staleState`'s forest. -/
def staleParent : GeneratedImage := .mk "zz" "uz" "bz" []

/-- The successful batch response of the C7 counterexample. -/
def staleResult : Except String (List (Option String)) :=
  .ok [some "data:image/png;base64,QQ"]

/-- Counterexample to C7 as stated: the target id `"zz"` does not resolve
via `findImageById`, the instruction and credential are fine, and yet the
external call is dispatched (`.2 = true`) and no error condition — stale
target or otherwise — is surfaced; `handleRefine` has no stale-target
check. -/
theorem handleRefine_stale_counterexample :
    findImageById staleState.generatedImages staleParent.id = none
    ∧ jsTrim staleState.refinementPrompt ≠ ""
    ∧ (handleRefine staleState true staleParent staleResult witnessIds).2 = true
    ∧ (handleRefine staleState true staleParent staleResult witnessIds).1.error = none
    ∧ (handleRefine staleState true staleParent staleResult
        witnessIds).1.generatedImages = staleState.generatedImages := by
  have hb : jsTrim "brighter" ≠ "" := by decide
  refine ⟨?_, by decide, ?_, ?_, ?_⟩
  · simp [findImageById, staleState, staleParent, navA,
      GeneratedImage.refinements, GeneratedImage.id]
  · simp [handleRefine, staleState, staleResult, hb]
  · simp [handleRefine, staleState, staleResult, hb]
  · simp [handleRefine, staleState, staleResult, staleParent, navA, witnessIds,
      mkRefinedImages, extractBase64, addRefinementsToImage, containsId,
      GeneratedImage.refinements, GeneratedImage.id, hb]

/-- C7 amended: a refinement whose `targetId` does not resolve via
`findImageById` is not rejected and produces no stale-target error: the
external call is still dispatched, and attaching the results is a silent
no-op (the forest is returned unchanged, per the spec's quiet-no-op
propagation policy in §7). -/
theorem handleRefine_stale_noop (st : RefineState) (p : GeneratedImage)
    (ids : Nat → String) (res : List (Option String))
    (hprompt : jsTrim st.refinementPrompt ≠ "")
    (hstale : findImageById st.generatedImages p.id = none) :
    (handleRefine st true p (.ok res) ids).2 = true
    ∧ (handleRefine st true p (.ok res) ids).1.generatedImages = st.generatedImages
    ∧ (handleRefine st true p (.ok res) ids).1.error = none := by
  refine ⟨by simp [handleRefine, hprompt], ?_, by simp [handleRefine, hprompt]⟩
  have : (handleRefine st true p (.ok res) ids).1.generatedImages
      = addRefinementsToImage st.generatedImages p.id
          (mkRefinedImages (res.filterMap (fun x => x)) ids) := by
    simp [handleRefine, hprompt]
  rw [this]
  exact addRefinementsToImage_noop _ _ _ (findImageById_eq_none_iff.mp hstale)

/-- Witness for the amended C7 at the concrete `staleState`. -/
theorem handleRefine_stale_noop_witness :
    jsTrim staleState.refinementPrompt ≠ ""
    ∧ findImageById staleState.generatedImages staleParent.id = none
    ∧ (handleRefine staleState true staleParent
        (.ok [some "data:image/png;base64,QQ"]) witnessIds).1.generatedImages
        = staleState.generatedImages := by
  have hstale : findImageById staleState.generatedImages staleParent.id = none := by
    simp [findImageById, staleState, staleParent, navA,
      GeneratedImage.refinements, GeneratedImage.id]
  exact ⟨by decide, hstale,
    (handleRefine_stale_noop staleState staleParent witnessIds
      [some "data:image/png;base64,QQ"] (by decide) hstale).2.1⟩

/-! ### Generation endpoint: C9 -/

theorem generateSingleImage_index (r : SlotResponse) (i : Nat) :
    (generateSingleImage r i).index = i := by
  rcases r with e | op
  · rfl
  · rcases op with - | parts
    · rfl
    · rw [generateSingleImage]
      cases findInlineImage parts <;> rfl

theorem generateSingleImage_excl (r : SlotResponse) (i : Nat) :
    (generateSingleImage r i).image = none
      ↔ (generateSingleImage r i).error.isSome := by
  rcases r with e | op
  · simp [generateSingleImage]
  · rcases op with - | parts
    · simp [generateSingleImage]
    · rw [generateSingleImage]
      cases findInlineImage parts <;> simp

theorem findInlineImage_ne_empty : ∀ (parts : List ResponsePart) (s : String),
    findInlineImage parts = some s → s ≠ "" := by
  intro parts
  induction parts with
  | nil => intro s h; exact absurd h (by simp [findInlineImage])
  | cons p rest ih =>
    intro s h
    rw [findInlineImage] at h
    cases hd : p.inlineData with
    | none => rw [hd] at h; exact ih s h
    | some d =>
      simp only [hd] at h
      by_cases hempty : (d.data == "") = true
      · rw [if_pos hempty] at h; exact ih s h
      · rw [if_neg hempty] at h
        obtain rfl : _ = s := Option.some_injective _ h
        intro habs
        have h5 : ("data:" ++ mimeOrDefault d.mimeType ++ ";base64," ++ d.data).length
            = 0 := by rw [habs]; rfl
        rw [String.length_append, String.length_append, String.length_append] at h5
        have hd5 : "data:".length = 5 := rfl
        omega

theorem generateSingleImage_image_ne_empty (r : SlotResponse) (i : Nat)
    (s : String) (h : (generateSingleImage r i).image = some s) : s ≠ "" := by
  rcases r with e | op
  · exact absurd h (by simp [generateSingleImage])
  · rcases op with - | parts
    · exact absurd h (by simp [generateSingleImage])
    · rw [generateSingleImage] at h
      cases hfi : findInlineImage parts with
      | none => rw [hfi] at h; exact absurd h (by simp)
      | some url =>
        rw [hfi] at h
        obtain rfl : url = s := by simpa using h
        exact findInlineImage_ne_empty parts url hfi

theorem results_sorted (oracle : Nat → SlotResponse) (n : Nat) :
    ((List.range n).map (fun i => generateSingleImage (oracle i) i)).mergeSort
      (fun a b => decide (a.index ≤ b.index))
    = (List.range n).map (fun i => generateSingleImage (oracle i) i) := by
  apply List.mergeSort_of_sorted
  rw [List.pairwise_map]
  apply List.Pairwise.imp ?_ (List.pairwise_lt_range n)
  intro a b hab
  simp [generateSingleImage_index]
  omega

/-- The per-slot images of a successful response, in slot order (derived
characterization of the route's `images` projection). -/
def postImages (oracle : Nat → SlotResponse) (n : Nat) : List (Option String) :=
  (List.range n).map (fun i => (generateSingleImage (oracle i) i).image)

/-- The error entries of a successful response: one `(index, message)` pair
per failed slot whose message is non-empty, in slot order (derived
characterization of the route's `errors` projection). -/
def postErrors (oracle : Nat → SlotResponse) (n : Nat) : List (Nat × String) :=
  (List.range n).filterMap (fun i =>
    match (generateSingleImage (oracle i) i).error with
    | some e => if e = "" then none else some (i, e)
    | none => none)

theorem map_fst_filterMap_sublist (f : Nat → Option (Nat × String))
    (hf : ∀ a b, f a = some b → b.1 = a) :
    ∀ l : List Nat, ((l.filterMap f).map Prod.fst).Sublist l := by
  intro l
  induction l with
  | nil => simp
  | cons a rest ih =>
    rw [List.filterMap_cons]
    cases hfa : f a with
    | none => exact ih.cons a
    | some b =>
      rw [List.map_cons, hf a b hfa]
      exact ih.cons₂ a

/-- The request of the C9 counterexample: valid credential, prompt, one
reference image and `count = 1`. -/
def badReq : GenerateRequest :=
  { prompt := "p", referenceImages := some [{ data := "d", mimeType := "image/png" }],
    count := some 1, apiKey := "k" }

/-- The collaborator of the C9 counterexample: the single slot throws an
error whose message is the empty string. -/
def badOracle : Nat → SlotResponse := fun _ => .error ""

/-- Counterexample to C9 as stated: slot 0 fails (its image is `null`),
but the success response's `errors` array is empty — it contains no entry
carrying index 0, because `filter(r => r.error)` drops an empty-string
message by JavaScript truthiness. -/
theorem POST_errors_counterexample :
    (generateSingleImage (badOracle 0) 0).image = none
    ∧ (generateSingleImage (badOracle 0) 0).error = some ""
    ∧ POST badReq badOracle = .success [none] [] := by
  refine ⟨rfl, rfl, ?_⟩
  rw [POST]
  simp [badReq, badOracle, generateSingleImage, List.range_succ]

/-- C9 amended: for a batch request with a credential, a prompt, a
non-empty reference list and `count = n`, the endpoint succeeds with an
`images` array of length exactly `n` in slot order whose slot `i` is null
exactly when slot `i`'s generation failed, and an `errors` array with
exactly one entry carrying index `i` for each failed slot `i` whose error
message is non-empty (an empty-string message is dropped by the truthiness
filter) and no entries for successful slots. -/
theorem POST_success_spec (req : GenerateRequest) (oracle : Nat → SlotResponse)
    (refs : List RefImage) (n : Nat) (hkey : req.apiKey ≠ "")
    (hrefs : req.referenceImages = some refs) (hne : refs ≠ [])
    (hprompt : req.prompt ≠ "") (hcount : req.count = some n) :
    POST req oracle = .success (postImages oracle n) (postErrors oracle n)
    ∧ (postImages oracle n).length = n
    ∧ (∀ i, i < n →
        (postImages oracle n).get? i = some (generateSingleImage (oracle i) i).image
        ∧ ((generateSingleImage (oracle i) i).image = none
            ↔ (generateSingleImage (oracle i) i).error.isSome))
    ∧ (∀ i e, (i, e) ∈ postErrors oracle n ↔
        i < n ∧ (generateSingleImage (oracle i) i).error = some e ∧ e ≠ "")
    ∧ ((postErrors oracle n).map Prod.fst).Nodup := by
  have hkeyb : (req.apiKey == "") = false := by simpa using hkey
  have hpromptb : (req.prompt == "") = false := by simpa using hprompt
  have hlen : (refs.length == 0) = false := by
    simp [List.length_eq_zero]
    exact hne
  refine ⟨?_, ?_, ?_, ?_, ?_⟩
  · rw [POST, hkeyb, hrefs]
    simp only [Bool.false_eq_true, if_false, hpromptb, hlen, Bool.or_self, hcount,
      Option.getD_some]
    rw [results_sorted]
    congr 1
    · rw [postImages, List.map_map]
      apply List.map_congr_left
      intro i hi
      simp only [Function.comp]
      cases himg : (generateSingleImage (oracle i) i).image with
      | none => simp [himg]
      | some s => simp [himg, generateSingleImage_image_ne_empty (oracle i) i s himg]
    · rw [postErrors, List.filterMap_map]
      apply List.filterMap_congr
      intro i hi
      simp only [Function.comp]
      cases herr : (generateSingleImage (oracle i) i).error with
      | none => simp [herr]
      | some e => simp [herr, generateSingleImage_index]
  · rw [postImages]
    simp
  · intro i hi
    constructor
    · rw [postImages, List.get?_map, List.get?_range hi]
      rfl
    · exact generateSingleImage_excl (oracle i) i
  · intro i e
    rw [postErrors, List.mem_filterMap]
    constructor
    · rintro ⟨j, hj, hfj⟩
      cases herr : (generateSingleImage (oracle j) j).error with
      | none =>
        simp only [herr] at hfj
        exact absurd hfj (by simp)
      | some e' =>
        simp only [herr] at hfj
        by_cases hee : e' = ""
        · rw [if_pos hee] at hfj; exact absurd hfj (by simp)
        · rw [if_neg hee] at hfj
          obtain ⟨rfl, rfl⟩ : j = i ∧ e' = e := by
            have := Option.some_injective _ hfj
            exact ⟨congrArg Prod.fst this, congrArg Prod.snd this⟩
          exact ⟨List.mem_range.mp hj, herr, hee⟩
    · rintro ⟨hi, herr, hee⟩
      exact ⟨i, List.mem_range.mpr hi, by simp only [herr]; rw [if_neg hee]⟩
  · rw [postErrors]
    refine List.Nodup.sublist (map_fst_filterMap_sublist _ ?_ _) (List.nodup_range n)
    intro a b hab
    cases herr : (generateSingleImage (oracle a) a).error with
    | none =>
      simp only [herr] at hab
      exact absurd hab (by simp)
    | some e =>
      simp only [herr] at hab
      by_cases hee : e = ""
      · rw [if_pos hee] at hab; exact absurd hab (by simp)
      · rw [if_neg hee] at hab
        have := Option.some_injective _ hab
        exact (congrArg Prod.fst this).symm ▸ rfl

/-- The request of the C9 witness: two slots. -/
def goodReq : GenerateRequest :=
  { prompt := "p", referenceImages := some [{ data := "d", mimeType := "image/png" }],
    count := some 2, apiKey := "k" }

/-- The collaborator of the C9 witness: slot 0 returns an image part, slot
1 throws with message `"bad"`. -/
def goodOracle : Nat → SlotResponse := fun i =>
  if i = 0 then
    .ok (some [{ text := none,
                 inlineData := some { data := "AB", mimeType := some "image/png" } }])
  else .error "bad"

/-- Witness for the amended C9 at `goodReq`/`goodOracle`: the response is a
success carrying `[some image, null]` and exactly the error entry
`(1, "bad")`. -/
theorem POST_success_spec_witness :
    POST goodReq goodOracle = .success (postImages goodOracle 2) (postErrors goodOracle 2)
    ∧ postImages goodOracle 2 = [some "data:image/png;base64,AB", none]
    ∧ postErrors goodOracle 2 = [(1, "bad")]
    ∧ ((1, "bad") ∈ postErrors goodOracle 2 ↔
        1 < 2 ∧ (generateSingleImage (goodOracle 1) 1).error = some "bad" ∧ "bad" ≠ "") := by
  have h := POST_success_spec goodReq goodOracle
    [{ data := "d", mimeType := "image/png" }] 2 (by decide) rfl (by decide)
    (by decide) rfl
  refine ⟨h.1, ?_, ?_, h.2.2.2.1 1 "bad"⟩
  · simp [postImages, goodOracle, generateSingleImage, findInlineImage, mimeOrDefault,
      List.range_succ]
  · simp [postErrors, goodOracle, generateSingleImage, findInlineImage, mimeOrDefault,
      List.range_succ]

end Excalidragram
